import Mathlib

/-!
Shallow embedding of the weather-map-app geometry / map pipeline
(src/lib/map-utils.ts, src/components/map/SVGMap.tsx, the search box
component) over the rationals.  JavaScript numbers are modelled as `ℚ`;
the decimal literals of the source (0.1, 1.2, 0.9, 1.1, 0.5, 3) become
the corresponding rationals.  Strings built by the code are modelled
with Lean `String`s, with JavaScript number-to-string rendering
abstracted as `toString : ℚ → String` (the claims under check only
concern the structure of the produced path strings, never the decimal
rendering of an individual number).
-/

/-- A geographic coordinate, as in `src/types/index.ts` (`Coordinates`). -/
structure Coordinates where
  lat : ℚ
  lng : ℚ
deriving DecidableEq

/-- One GeoJSON position as the code destructures it: `const [lng, lat] = coord`.
First component longitude, second latitude. -/
abbrev Coord := ℚ × ℚ

/-- A linear ring: a list of positions. -/
abbrev LinearRing := List Coord

/-- GeoJSON geometry as dispatched on by `geometryToSVGPath` and
`calculateBounds`: `Polygon` carries `[ring][coordinate]`, `MultiPolygon`
carries `[polygon][ring][coordinate]`, and any other geometry type is kept
only as its `type` string (the code never reads its coordinates). -/
inductive Geometry where
  | polygon (coordinates : List LinearRing)
  | multiPolygon (coordinates : List (List LinearRing))
  | other (typeName : String)
deriving DecidableEq

/-- A GeoJSON feature, keeping the fields the embedded functions read. -/
structure GeoFeature where
  name : String
  adcode : Int
  center : Coord
  geometry : Geometry
deriving DecidableEq

/-- A GeoJSON FeatureCollection (`GeoData` in `src/types/index.ts`). -/
structure GeoData where
  featureCollectionType : String
  features : List GeoFeature
deriving DecidableEq

/-- Embedding of `MapBounds` from src/lib/map-utils.ts. -/
structure MapBounds where
  minLat : ℚ
  maxLat : ℚ
  minLng : ℚ
  maxLng : ℚ
  width : ℚ
  height : ℚ
deriving DecidableEq

/-- Embedding of `projectCoordinate` from src/lib/map-utils.ts lines 175-183. -/
def projectCoordinate (coord : Coordinates) (bounds : MapBounds) : ℚ × ℚ :=
  let x := ((coord.lng - bounds.minLng) / (bounds.maxLng - bounds.minLng)) * bounds.width
  let y := bounds.height - ((coord.lat - bounds.minLat) / (bounds.maxLat - bounds.minLat)) * bounds.height
  (x, y)

/-- The rendered `x y` pair of one projected position, as interpolated by
the template literals `` `M ${x} ${y}` `` and `` `L ${x} ${y}` ``. -/
def pointString (bounds : MapBounds) (c : Coord) : String :=
  let p := projectCoordinate ⟨c.2, c.1⟩ bounds
  toString p.1 ++ " " ++ toString p.2

/-- The string pushed for the coordinate at index `idx` of a ring:
`M x y` for the first coordinate, `L x y` for the others
(src/lib/map-utils.ts lines 46-55 and 75-84; the two loops are textually
identical, so they are embedded once). -/
def coordCommand (bounds : MapBounds) (idx : Nat) (c : Coord) : String :=
  (if idx = 0 then "M " else "L ") ++ pointString bounds c

/-- One ring's path string: the per-coordinate commands (indexed, as the
`forEach((coord, coordIndex) => ...)` loop does) followed by `Z`, joined
with single spaces (`pathCommands.join(' ')`). -/
def ringToPath (bounds : MapBounds) (ring : LinearRing) : String :=
  String.intercalate " " ((ring.enum.map fun p => coordCommand bounds p.1 p.2) ++ ["Z"])

/-- Embedding of `polygonToSVGPath` from src/lib/map-utils.ts lines 39-62:
one path string per ring, joined with single spaces. -/
def polygonToSVGPath (coordinates : List LinearRing) (bounds : MapBounds) : String :=
  String.intercalate " " (coordinates.map (ringToPath bounds))

/-- Embedding of `multiPolygonToSVGPath` from src/lib/map-utils.ts lines 67-92:
one path string per ring of each polygon, pushed into a single flat list
in input order, joined with single spaces. -/
def multiPolygonToSVGPath (coordinates : List (List LinearRing)) (bounds : MapBounds) : String :=
  String.intercalate " " ((coordinates.map fun polygon => polygon.map (ringToPath bounds)).flatten)

/-- Embedding of `geometryToSVGPath` from src/lib/map-utils.ts lines 97-107. -/
def geometryToSVGPath (geometry : Geometry) (bounds : MapBounds) : String :=
  match geometry with
  | .polygon coordinates => polygonToSVGPath coordinates bounds
  | .multiPolygon coordinates => multiPolygonToSVGPath coordinates bounds
  | .other _ => ""

/-- Accumulate a running minimum, with `none` standing for the `Infinity`
initial accumulator of `calculateBounds` (no coordinate seen yet):
`Math.min(Infinity, v) = v`, `Math.min(a, v)` otherwise. -/
def optMin (acc : Option ℚ) (v : ℚ) : Option ℚ :=
  match acc with
  | none => some v
  | some a => some (min a v)

/-- Accumulate a running maximum, with `none` standing for `-Infinity`. -/
def optMax (acc : Option ℚ) (v : ℚ) : Option ℚ :=
  match acc with
  | none => some v
  | some a => some (max a v)

/-- The positions a feature contributes to the bounds scan of
`calculateBounds` (src/lib/map-utils.ts lines 130-156): every coordinate of
every ring when the geometry is a Polygon or MultiPolygon, nothing
otherwise, in nesting order. -/
def featureCoords : Geometry → List Coord
  | .polygon coordinates => coordinates.flatten
  | .multiPolygon coordinates => (coordinates.map List.flatten).flatten
  | .other _ => []

/-- All positions scanned by `calculateBounds`, in feature order. -/
def allCoords (geoData : GeoData) : List Coord :=
  (geoData.features.map fun f => featureCoords f.geometry).flatten

/-- The four running accumulators of `calculateBounds` (minLat, maxLat,
minLng, maxLng), `none` standing for the untouched `±Infinity` start. -/
structure BoundsAcc where
  minLat : Option ℚ
  maxLat : Option ℚ
  minLng : Option ℚ
  maxLng : Option ℚ
deriving DecidableEq

/-- One step of the bounds scan (lines 136-140 / 148-152). -/
def updateBounds (acc : BoundsAcc) (c : Coord) : BoundsAcc :=
  { minLat := optMin acc.minLat c.2
    maxLat := optMax acc.maxLat c.2
    minLng := optMin acc.minLng c.1
    maxLng := optMax acc.maxLng c.1 }

/-- The accumulators after scanning the whole FeatureCollection. -/
def boundsScan (geoData : GeoData) : BoundsAcc :=
  (allCoords geoData).foldl updateBounds ⟨none, none, none, none⟩

/-- Embedding of `calculateBounds` from src/lib/map-utils.ts lines 124-170.  When the
input contains no Polygon/MultiPolygon coordinate the JavaScript function
returns non-finite bounds (the `±Infinity` accumulators flow through the
padding arithmetic); that unrepresentable outcome is modelled as `none`.
The default padding at call sites is 0.1. -/
def calculateBounds (geoData : GeoData) (padding : ℚ) : Option MapBounds :=
  match boundsScan geoData with
  | ⟨some minLat, some maxLat, some minLng, some maxLng⟩ =>
    let latPadding := (maxLat - minLat) * padding
    let lngPadding := (maxLng - minLng) * padding
    some { minLat := minLat - latPadding
           maxLat := maxLat + latPadding
           minLng := minLng - lngPadding
           maxLng := maxLng + lngPadding
           width := 800
           height := 600 }
  | _ => none

/-- The edge test of `pointInPolygon` (src/lib/map-utils.ts line 198):
`((yi > y) !== (yj > y)) && (x < (xj - xi) * (y - yi) / (yj - yi) + xi)`. -/
def edgeTest (x y xi yi xj yj : ℚ) : Bool :=
  ((decide (yi > y)) != (decide (yj > y)))
    && decide (x < (xj - xi) * (y - yi) / (yj - yi) + xi)

/-- The edge test at loop index `i`: `j` is the previous index (wrapping to
the last vertex for `i = 0`, matching `j = polygon.length - 1; j = i++`),
`(xi, yi)` and `(xj, yj)` are the vertices at `i` and `j`. -/
def edgeAt (point : ℚ × ℚ) (polygon : List (ℚ × ℚ)) (i : Nat) : Bool :=
  let j := if i = 0 then polygon.length - 1 else i - 1
  let vi := polygon.getD i (0, 0)
  let vj := polygon.getD j (0, 0)
  edgeTest point.1 point.2 vi.1 vi.2 vj.1 vj.2

/-- Embedding of `pointInPolygon` from src/lib/map-utils.ts lines 188-204 (ray casting):
`i` runs over all indices and `inside` flips whenever the edge test holds. -/
def pointInPolygon (point : ℚ × ℚ) (polygon : List (ℚ × ℚ)) : Bool :=
  (List.range polygon.length).foldl
    (fun inside i => if edgeAt point polygon i then !inside else inside)
    false

/-- The edge test with its division checked: `none` when the divisor
`yj - yi` would be zero on the branch that divides; used to state that
`pointInPolygon` never divides by zero (the guard short-circuits the `&&`). -/
def edgeTestChecked (x y xi yi xj yj : ℚ) : Option Bool :=
  if ((decide (yi > y)) != (decide (yj > y))) then
    if yj - yi = 0 then none
    else some (decide (x < (xj - xi) * (y - yi) / (yj - yi) + xi))
  else some false

/-- The checked edge test at loop index `i`. -/
def edgeAtChecked (point : ℚ × ℚ) (polygon : List (ℚ × ℚ)) (i : Nat) : Option Bool :=
  let j := if i = 0 then polygon.length - 1 else i - 1
  let vi := polygon.getD i (0, 0)
  let vj := polygon.getD j (0, 0)
  edgeTestChecked point.1 point.2 vi.1 vi.2 vj.1 vj.2

/-- Variant of `pointInPolygon` with every division checked: the whole run aborts with
`none` as soon as an evaluated division would have a zero divisor. -/
def pointInPolygonChecked (point : ℚ × ℚ) (polygon : List (ℚ × ℚ)) : Option Bool :=
  (List.range polygon.length).foldl
    (fun inside i =>
      inside.bind fun b =>
        (edgeAtChecked point polygon i).map fun t => if t then !b else b)
    (some false)

/-- The interactive state of the `SVGMap` component that the zoom and pan
handlers update: `zoomLevel` (initially 1) and `panOffset` (initially
`(0, 0)`), src/components/map/SVGMap.tsx lines 31-32. -/
structure MapViewState where
  zoomLevel : ℚ
  panOffset : ℚ × ℚ
deriving DecidableEq

/-- The initial state of the map view: `useState(1)`, `useState({x:0,y:0})`. -/
def initMapViewState : MapViewState :=
  { zoomLevel := 1, panOffset := (0, 0) }

/-- Embedding of `handleZoomIn` (SVGMap.tsx lines 114-116): `min(prev * 1.2, 3)`. -/
def handleZoomIn (s : MapViewState) : MapViewState :=
  { s with zoomLevel := min (s.zoomLevel * (6 / 5)) 3 }

/-- Embedding of `handleZoomOut` (SVGMap.tsx lines 118-120): `max(prev / 1.2, 0.5)`. -/
def handleZoomOut (s : MapViewState) : MapViewState :=
  { s with zoomLevel := max (s.zoomLevel / (6 / 5)) (1 / 2) }

/-- Embedding of `handleZoomReset` (SVGMap.tsx lines 122-125). -/
def handleZoomReset (_s : MapViewState) : MapViewState :=
  { zoomLevel := 1, panOffset := (0, 0) }

/-- Embedding of `handleWheel` (SVGMap.tsx lines 149-154): the factor is 0.9 when
`deltaY > 0` and 1.1 otherwise, and the product is clamped into
`[0.5, 3]` by `Math.max(0.5, Math.min(3, prev * delta))`. -/
def handleWheel (deltaY : ℚ) (s : MapViewState) : MapViewState :=
  let delta : ℚ := if deltaY > 0 then 9 / 10 else 11 / 10
  { s with zoomLevel := max (1 / 2) (min 3 (s.zoomLevel * delta)) }

/-- The zoom-level invariant claimed for the map view. -/
def zoomInv (s : MapViewState) : Prop :=
  1 / 2 ≤ s.zoomLevel ∧ s.zoomLevel ≤ 3

instance (s : MapViewState) : Decidable (zoomInv s) := by
  unfold zoomInv; infer_instance

/-- The rendering decision of the map view for one feature
(SVGMap.tsx line 197): features whose geometry is neither Polygon nor
MultiPolygon are skipped (`return null`), every other feature is rendered
with the path string `geometryToSVGPath` produces for it. -/
def renderFeature (f : GeoFeature) (bounds : MapBounds) : Option String :=
  match f.geometry with
  | .other _ => none
  | g => some (geometryToSVGPath g bounds)

/-- Embedding of `CityType` from src/lib/map-utils.ts line 6. -/
inductive CityType where
  | shanghai | hangzhou | huzhou | jiaxing | ningbo | shaoxing | zhoushan
deriving DecidableEq

/-- The fixed city order of `loadCombinedMapData` (map-utils.ts line 221). -/
def cityNames : List CityType :=
  [.shanghai, .hangzhou, .huzhou, .jiaxing, .ningbo, .shaoxing, .zhoushan]

/-- The empty FeatureCollection, used as the placeholder value of a result
slot whose fetch has not completed yet. -/
def emptyGeoData : GeoData :=
  { featureCollectionType := "FeatureCollection", features := [] }

/-- Model of `Promise.all` resolving under an arbitrary completion
schedule: each index `i` of `order` writes the value of fetch `i` into slot
`i` of the results array when that fetch completes; `order` is the order in
which the fetches complete.  `Promise.all` stores each result at the index
of its promise, so the schedule only determines the write order. -/
def promiseAllSchedule (vals : List GeoData) (order : List Nat) : List GeoData :=
  order.foldl (fun acc i => acc.set i (vals.getD i emptyGeoData))
    (List.replicate vals.length emptyGeoData)

/-- Embedding of `loadCombinedMapData` from src/lib/map-utils.ts lines 217-248, with the
network abstracted: `env city` is the GeoJSON value the fetch for `city`
resolves to (the success path; a rejected fetch rethrows and produces no
value), and `order` is the completion schedule of the seven parallel
fetches.  Returns the `cities` record (as a function) and the `combined`
FeatureCollection built by `flatMap` over the results array. -/
def loadCombinedMapData (env : CityType → GeoData) (order : List Nat) :
    (CityType → GeoData) × GeoData :=
  let cityDataArray := promiseAllSchedule (cityNames.map env) order
  let cities : CityType → GeoData := fun city =>
    cityDataArray.getD (cityNames.indexOf city) emptyGeoData
  let combined : GeoData :=
    { featureCollectionType := "FeatureCollection"
      features := (cityDataArray.map GeoData.features).flatten }
  (cities, combined)

/-- Embedding of `SearchResult` from the search box component: one geocoding hit.
`admin1`/`admin2` are optional in the API response, hence `Option`. -/
structure SearchResult where
  name : String
  latitude : ℚ
  longitude : ℚ
  country : String
  admin1 : Option String
  admin2 : Option String
deriving DecidableEq

/-- Whether a geocoding hit is in the target provinces:
`a.admin1 === 'Shanghai' || a.admin1 === 'Zhejiang'` (an absent `admin1`
compares unequal to both). -/
def isTargetResult (r : SearchResult) : Bool :=
  r.admin1 == some "Shanghai" || r.admin1 == some "Zhejiang"

/-- The sort comparator used on the filtered geocoding hits. -/
def searchComparator (a b : SearchResult) : Int :=
  if isTargetResult a && !isTargetResult b then -1
  else if !isTargetResult a && isTargetResult b then 1
  else 0

/-- Relation stating that `a` sorts no later than `b`: the comparator does not return a positive
number on `(a, b)`. -/
def searchLe (a b : SearchResult) : Bool :=
  searchComparator a b ≤ 0

/-- Stable insertion of `x` into a sorted list: `x` is placed before the
first element `y` that does not strictly precede it under `le`, so elements
comparing equal to `x` stay behind `x` (which came earlier in the input). -/
def stableInsert (le : SearchResult → SearchResult → Bool) (x : SearchResult) :
    List SearchResult → List SearchResult
  | [] => [x]
  | y :: ys =>
    if le y x && !le x y then y :: stableInsert le x ys else x :: y :: ys

/-- A stable sort, modelling `Array.prototype.sort` (stable per ES2019).
`le a b` holds when the comparator orders `a` no later than `b`. -/
def stableSortResults (le : SearchResult → SearchResult → Bool) :
    List SearchResult → List SearchResult
  | [] => []
  | x :: xs => stableInsert le x (stableSortResults le xs)

/-- The result-list post-processing of `searchLocations` in the search box
component: keep hits whose `country` is `'China'`, stably sort by the
comparator (Shanghai/Zhejiang hits first), and keep the first 8. -/
def filterSearchResults (locations : List SearchResult) : List SearchResult :=
  (stableSortResults searchLe
    (locations.filter fun l => l.country == "China")).take 8

/-- The path string the specification describes for one nonempty ring
`[c0, c1, ..., cn]`: the words `M`, `x0 y0`, `L`, `x1 y1`, ..., `L`,
`xn yn`, `Z` joined by single spaces, where `(xi, yi)` is the projection of
`ci` read as `[lng, lat]`.  The empty ring is outside the claim and mapped
to the empty string. -/
def specRingString (bounds : MapBounds) : LinearRing → String
  | [] => ""
  | c :: cs =>
    String.intercalate " "
      (("M " ++ pointString bounds c)
        :: (cs.map fun d => "L " ++ pointString bounds d) ++ ["Z"])

/-- The specification's crossing condition for the edge from vertex `vj`
to vertex `vi`: exactly one endpoint has y-coordinate strictly above the
point's, and the edge's intersection with the horizontal line through the
point lies strictly to the right of the point's x-coordinate. -/
def specCrossing (p vi vj : ℚ × ℚ) : Bool :=
  (decide (vi.2 > p.2 ∧ ¬vj.2 > p.2) || decide (vj.2 > p.2 ∧ ¬vi.2 > p.2))
    && decide (vi.1 + (vj.1 - vi.1) * (p.2 - vi.2) / (vj.2 - vi.2) > p.1)

/-- The loop indices whose edge (previous vertex, current vertex; the edge
of index 0 closes the ring back to the last vertex) satisfies the
specification's crossing condition. -/
def crossedEdges (p : ℚ × ℚ) (polygon : List (ℚ × ℚ)) : List Nat :=
  (List.range polygon.length).filter fun i =>
    let j := if i = 0 then polygon.length - 1 else i - 1
    specCrossing p (polygon.getD i (0, 0)) (polygon.getD j (0, 0))

/-- Whether the map view renders a feature's geometry: SVGMap.tsx line 197
returns `null` unless the type is `'Polygon'` or `'MultiPolygon'`. -/
def isPolygonal : Geometry → Bool
  | .other _ => false
  | _ => true

/-- A one-feature FeatureCollection used to instantiate theorems about
`calculateBounds` at a concrete input. -/
def sampleGeoData : GeoData :=
  { featureCollectionType := "FeatureCollection"
    features := [{ name := "demo"
                   adcode := 310101
                   center := (1, 1)
                   geometry := .polygon [[(0, 0), (2, 1)]] }] }

/-- Concrete bounds used to instantiate path-building theorems. -/
def sampleBounds : MapBounds :=
  { minLat := 0, maxLat := 10, minLng := 0, maxLng := 20, width := 800, height := 600 }

/-- A concrete geocoding response used to instantiate the search-filter
theorem: one non-target China hit, two target hits, one non-China hit. -/
def sampleSearchResults : List SearchResult :=
  [{ name := "a", latitude := 0, longitude := 0, country := "China"
     admin1 := some "Beijing", admin2 := none },
   { name := "b", latitude := 0, longitude := 0, country := "China"
     admin1 := some "Zhejiang", admin2 := none },
   { name := "c", latitude := 0, longitude := 0, country := "China"
     admin1 := some "Shanghai", admin2 := none },
   { name := "d", latitude := 0, longitude := 0, country := "Japan"
     admin1 := none, admin2 := none }]

/-- C1: for every coordinate and every bounds with distinct longitude and
latitude extents, `projectCoordinate` returns exactly the linear min/max
normalization `x = ((lng - minLng) / (maxLng - minLng)) * width`,
`y = height - ((lat - minLat) / (maxLat - minLat)) * height`; `x` depends
only on the longitude and `y` only on the latitude, and the Y axis is
flipped: `lat = maxLat` maps to `y = 0` and `lat = minLat` to `y = height`. -/
theorem projectCoordinate_spec (coord : Coordinates) (b : MapBounds)
    (hLng : b.maxLng ≠ b.minLng) (hLat : b.maxLat ≠ b.minLat) :
    (projectCoordinate coord b).1
        = ((coord.lng - b.minLng) / (b.maxLng - b.minLng)) * b.width
    ∧ (projectCoordinate coord b).2
        = b.height - ((coord.lat - b.minLat) / (b.maxLat - b.minLat)) * b.height
    ∧ (∀ c : Coordinates, c.lng = coord.lng →
        (projectCoordinate c b).1 = (projectCoordinate coord b).1)
    ∧ (∀ c : Coordinates, c.lat = coord.lat →
        (projectCoordinate c b).2 = (projectCoordinate coord b).2)
    ∧ (projectCoordinate ⟨b.maxLat, coord.lng⟩ b).2 = 0
    ∧ (projectCoordinate ⟨b.minLat, coord.lng⟩ b).2 = b.height := by
  refine ⟨rfl, rfl, ?_, ?_, ?_, ?_⟩
  · intro c hc; simp [projectCoordinate, hc]
  · intro c hc; simp [projectCoordinate, hc]
  · have h : b.maxLat - b.minLat ≠ 0 := sub_ne_zero.mpr hLat
    simp [projectCoordinate, div_self h]
  · simp [projectCoordinate]

/-- Witness for C1 at a concrete coordinate and bounds. -/
theorem projectCoordinate_spec_witness :
    ((⟨0, 10, 0, 20, 800, 600⟩ : MapBounds).maxLng
        ≠ (⟨0, 10, 0, 20, 800, 600⟩ : MapBounds).minLng)
    ∧ (projectCoordinate ⟨10, 5⟩ ⟨0, 10, 0, 20, 800, 600⟩).1
        = ((5 - 0) / (20 - 0)) * 800 := by
  refine ⟨by decide, ?_⟩
  exact (projectCoordinate_spec ⟨10, 5⟩ ⟨0, 10, 0, 20, 800, 600⟩
    (by decide) (by decide)).1

lemma foldl_optMin_some (l : List ℚ) (a : ℚ) :
    l.foldl optMin (some a) = some (l.foldl min a) := by
  induction l generalizing a with
  | nil => rfl
  | cons x xs ih => simp [optMin, ih]

lemma foldl_optMax_some (l : List ℚ) (a : ℚ) :
    l.foldl optMax (some a) = some (l.foldl max a) := by
  induction l generalizing a with
  | nil => rfl
  | cons x xs ih => simp [optMax, ih]

lemma foldl_updateBounds (cs : List Coord) (acc : BoundsAcc) :
    cs.foldl updateBounds acc =
      ⟨(cs.map Prod.snd).foldl optMin acc.minLat,
       (cs.map Prod.snd).foldl optMax acc.maxLat,
       (cs.map Prod.fst).foldl optMin acc.minLng,
       (cs.map Prod.fst).foldl optMax acc.maxLng⟩ := by
  induction cs generalizing acc with
  | nil => rfl
  | cons c cs ih => simp [updateBounds, ih]

lemma boundsScan_cons (g : GeoData) (c : Coord) (cs : List Coord)
    (hg : allCoords g = c :: cs) :
    boundsScan g =
      ⟨some ((cs.map Prod.snd).foldl min c.2),
       some ((cs.map Prod.snd).foldl max c.2),
       some ((cs.map Prod.fst).foldl min c.1),
       some ((cs.map Prod.fst).foldl max c.1)⟩ := by
  unfold boundsScan
  rw [hg]
  rw [List.foldl_cons]
  rw [foldl_updateBounds]
  show BoundsAcc.mk
    ((cs.map Prod.snd).foldl optMin (some c.2))
    ((cs.map Prod.snd).foldl optMax (some c.2))
    ((cs.map Prod.fst).foldl optMin (some c.1))
    ((cs.map Prod.fst).foldl optMax (some c.1)) = _
  rw [foldl_optMin_some, foldl_optMax_some, foldl_optMin_some, foldl_optMax_some]

lemma calculateBounds_dims (g : GeoData) (p : ℚ) (b : MapBounds)
    (hb : calculateBounds g p = some b) : b.width = 800 ∧ b.height = 600 := by
  unfold calculateBounds at hb
  rcases hscan : boundsScan g with ⟨mnLat, mxLat, mnLng, mxLng⟩
  rw [hscan] at hb
  cases mnLat <;> cases mxLat <;> cases mnLng <;> cases mxLng <;>
    simp only [Option.some.injEq, reduceCtorEq] at hb
  rw [← hb]
  exact ⟨rfl, rfl⟩

/-- C2: on any GeoData with at least one Polygon/MultiPolygon coordinate,
`calculateBounds` returns the minimum and maximum latitude and longitude
over every coordinate of every ring of every Polygon/MultiPolygon feature,
each extended outward by `padding` times the corresponding raw span, with
`width = 800` and `height = 600`; and every bounds it ever produces has
`width = 800` and `height = 600`. -/
theorem calculateBounds_spec (g : GeoData) (p : ℚ) (h : allCoords g ≠ []) :
    (∃ mnLat mxLat mnLng mxLng : ℚ,
      ((allCoords g).map Prod.snd).min? = some mnLat
      ∧ ((allCoords g).map Prod.snd).max? = some mxLat
      ∧ ((allCoords g).map Prod.fst).min? = some mnLng
      ∧ ((allCoords g).map Prod.fst).max? = some mxLng
      ∧ calculateBounds g p = some
          { minLat := mnLat - (mxLat - mnLat) * p
            maxLat := mxLat + (mxLat - mnLat) * p
            minLng := mnLng - (mxLng - mnLng) * p
            maxLng := mxLng + (mxLng - mnLng) * p
            width := 800
            height := 600 })
    ∧ (∀ (g' : GeoData) (p' : ℚ) (b' : MapBounds),
        calculateBounds g' p' = some b' → b'.width = 800 ∧ b'.height = 600) := by
  constructor
  · obtain ⟨c, cs, hg⟩ := List.exists_cons_of_ne_nil h
    refine ⟨(cs.map Prod.snd).foldl min c.2, (cs.map Prod.snd).foldl max c.2,
      (cs.map Prod.fst).foldl min c.1, (cs.map Prod.fst).foldl max c.1,
      ?_, ?_, ?_, ?_, ?_⟩
    · rw [hg]; rfl
    · rw [hg]; rfl
    · rw [hg]; rfl
    · rw [hg]; rfl
    · unfold calculateBounds
      rw [boundsScan_cons g c cs hg]
  · exact fun g' p' b' hb => calculateBounds_dims g' p' b' hb

/-- Witness for C2 on a concrete one-feature FeatureCollection. -/
theorem calculateBounds_spec_witness :
    (allCoords sampleGeoData ≠ [])
    ∧ ((∃ mnLat mxLat mnLng mxLng : ℚ,
        ((allCoords sampleGeoData).map Prod.snd).min? = some mnLat
        ∧ ((allCoords sampleGeoData).map Prod.snd).max? = some mxLat
        ∧ ((allCoords sampleGeoData).map Prod.fst).min? = some mnLng
        ∧ ((allCoords sampleGeoData).map Prod.fst).max? = some mxLng
        ∧ calculateBounds sampleGeoData (1 / 10) = some
            { minLat := mnLat - (mxLat - mnLat) * (1 / 10)
              maxLat := mxLat + (mxLat - mnLat) * (1 / 10)
              minLng := mnLng - (mxLng - mnLng) * (1 / 10)
              maxLng := mxLng + (mxLng - mnLng) * (1 / 10)
              width := 800
              height := 600 })
      ∧ (∀ (g' : GeoData) (p' : ℚ) (b' : MapBounds),
          calculateBounds g' p' = some b' → b'.width = 800 ∧ b'.height = 600)) :=
  ⟨by decide, calculateBounds_spec sampleGeoData (1 / 10) (by decide)⟩

lemma enumFrom_coordCommand (b : MapBounds) (cs : List Coord) (n : Nat) (hn : n ≠ 0) :
    ((cs.enumFrom n).map fun p => coordCommand b p.1 p.2)
      = cs.map fun d => "L " ++ pointString b d := by
  induction cs generalizing n with
  | nil => rfl
  | cons c cs ih =>
    show coordCommand b n c :: _ = _
    rw [coordCommand, if_neg hn, List.map_cons, ih (n + 1) (Nat.succ_ne_zero n)]

lemma ringToPath_eq_spec (b : MapBounds) (ring : LinearRing) (h : ring ≠ []) :
    ringToPath b ring = specRingString b ring := by
  obtain ⟨c, cs, rfl⟩ := List.exists_cons_of_ne_nil h
  show String.intercalate " "
      ((((0, c) :: cs.enumFrom 1).map fun p => coordCommand b p.1 p.2) ++ ["Z"]) = _
  rw [List.map_cons, enumFrom_coordCommand b cs 1 one_ne_zero]
  rfl

/-- C3: for every bounds, `polygonToSVGPath` maps each (nonempty) ring
`[c0, ..., cn]` to `M x0 y0 L x1 y1 ... L xn yn Z` with `(xi, yi)` the
projection of `ci` read as `[lng, lat]`, and joins the per-ring strings
with single spaces; `multiPolygonToSVGPath` produces the same per-ring
strings for every ring of every polygon in input order; an empty
coordinates array yields the empty string. -/
theorem svgPath_spec (b : MapBounds) (coords : List LinearRing)
    (mcoords : List (List LinearRing))
    (hne : ∀ r ∈ coords, r ≠ []) (hmne : ∀ poly ∈ mcoords, ∀ r ∈ poly, r ≠ []) :
    polygonToSVGPath coords b = String.intercalate " " (coords.map (specRingString b))
    ∧ multiPolygonToSVGPath mcoords b
        = String.intercalate " " (mcoords.flatten.map (specRingString b))
    ∧ polygonToSVGPath [] b = ""
    ∧ multiPolygonToSVGPath [] b = "" := by
  refine ⟨?_, ?_, rfl, rfl⟩
  · unfold polygonToSVGPath
    rw [List.map_congr_left fun r hr => ringToPath_eq_spec b r (hne r hr)]
  · unfold multiPolygonToSVGPath
    rw [List.map_flatten]
    congr 2
    exact List.map_congr_left fun poly hp =>
      List.map_congr_left fun r hr => ringToPath_eq_spec b r (hmne poly hp r hr)

/-- Witness for C3 on concrete Polygon and MultiPolygon coordinate arrays. -/
theorem svgPath_spec_witness :
    (∀ r ∈ [[((0 : ℚ), (0 : ℚ)), (2, 1)]], r ≠ [])
    ∧ polygonToSVGPath [[((0 : ℚ), (0 : ℚ)), (2, 1)]] sampleBounds
        = String.intercalate " "
            ([[((0 : ℚ), (0 : ℚ)), (2, 1)]].map (specRingString sampleBounds)) := by
  refine ⟨by decide, ?_⟩
  exact (svgPath_spec sampleBounds [[((0 : ℚ), (0 : ℚ)), (2, 1)]]
    [[[((0 : ℚ), (0 : ℚ)), (2, 1)]]] (by decide) (by decide)).1

/-- C5: for every Polygon coordinates array `c` and bounds `b`,
`polygonToSVGPath c b` equals `multiPolygonToSVGPath [c] b`, and
`geometryToSVGPath` returns the same string for a `Polygon` geometry with
coordinates `c` as for a `MultiPolygon` geometry with coordinates `[c]`. -/
theorem polygon_eq_multiPolygon_singleton (c : List LinearRing) (b : MapBounds) :
    polygonToSVGPath c b = multiPolygonToSVGPath [c] b
    ∧ geometryToSVGPath (.polygon c) b = geometryToSVGPath (.multiPolygon [c]) b := by
  have h : polygonToSVGPath c b = multiPolygonToSVGPath [c] b := by
    unfold polygonToSVGPath multiPolygonToSVGPath
    rw [List.map_cons, List.map_nil, List.flatten_cons, List.flatten_nil,
      List.append_nil]
  exact ⟨h, h⟩

/-- C9: `geometryToSVGPath` returns the empty string for a geometry whose
type is neither Polygon nor MultiPolygon, and the map view renders nothing
for such a feature (and renders the `geometryToSVGPath` string for every
Polygon/MultiPolygon feature). -/
theorem unsupported_geometry_spec (t : String) (b : MapBounds) (f : GeoFeature) :
    geometryToSVGPath (.other t) b = ""
    ∧ (isPolygonal f.geometry = false → renderFeature f b = none)
    ∧ (isPolygonal f.geometry = true →
        renderFeature f b = some (geometryToSVGPath f.geometry b)) := by
  refine ⟨rfl, ?_, ?_⟩ <;>
    · intro h
      cases hg : f.geometry <;> simp_all [isPolygonal, renderFeature]

/-- Witness for C9 on a concrete LineString feature and a concrete
MultiPolygon feature. -/
theorem unsupported_geometry_spec_witness :
    (isPolygonal (Geometry.other "LineString") = false)
    ∧ renderFeature ⟨"demo", 0, (0, 0), .other "LineString"⟩ sampleBounds = none := by
  refine ⟨by decide, ?_⟩
  exact (unsupported_geometry_spec "LineString" sampleBounds
    ⟨"demo", 0, (0, 0), .other "LineString"⟩).2.1 (by decide)

lemma foldl_flip_parity (f : Nat → Bool) (l : List Nat) (b : Bool) :
    l.foldl (fun acc i => if f i then !acc else acc) b
      = (b != decide ((l.filter f).length % 2 = 1)) := by
  induction l generalizing b with
  | nil => simp
  | cons x xs ih =>
    rw [List.foldl_cons, ih]
    by_cases h : f x
    · rw [List.filter_cons_of_pos h, if_pos h, List.length_cons]
      rcases Nat.mod_two_eq_zero_or_one (xs.filter f).length with h2 | h2 <;>
        cases b <;> simp [h2, Nat.add_mod]
    · rw [List.filter_cons_of_neg h, if_neg h]

lemma edgeTest_eq_specCrossing (x y xi yi xj yj : ℚ) :
    edgeTest x y xi yi xj yj = specCrossing (x, y) (xi, yi) (xj, yj) := by
  unfold edgeTest specCrossing
  have hadd : (xj - xi) * (y - yi) / (yj - yi) + xi
      = xi + (xj - xi) * (y - yi) / (yj - yi) := add_comm _ _
  by_cases h1 : yi > y <;> by_cases h2 : yj > y <;>
    simp [h1, h2, gt_iff_lt, hadd]

lemma edgeAt_eq_specCrossing (p : ℚ × ℚ) (polygon : List (ℚ × ℚ)) (i : Nat) :
    edgeAt p polygon i
      = specCrossing p (polygon.getD i (0, 0))
          (polygon.getD (if i = 0 then polygon.length - 1 else i - 1) (0, 0)) := by
  unfold edgeAt
  rw [edgeTest_eq_specCrossing]

/-- C4: `pointInPolygon` returns `true` exactly when the number of polygon
edges (previous vertex, current vertex), the closing edge included, for
which exactly one endpoint lies strictly above the point and whose
intersection with the horizontal line through the point lies strictly to
the right of it, is odd; on the empty vertex list it returns `false`. -/
theorem pointInPolygon_spec (p : ℚ × ℚ) (polygon : List (ℚ × ℚ)) :
    (pointInPolygon p polygon = true ↔ (crossedEdges p polygon).length % 2 = 1)
    ∧ pointInPolygon p [] = false := by
  refine ⟨?_, rfl⟩
  unfold pointInPolygon crossedEdges
  rw [foldl_flip_parity (edgeAt p polygon) (List.range polygon.length) false]
  rw [List.filter_congr fun i _ => edgeAt_eq_specCrossing p polygon i]
  cases h : decide (((List.range polygon.length).filter fun i =>
      specCrossing p (polygon.getD i (0, 0))
        (polygon.getD (if i = 0 then polygon.length - 1 else i - 1)
          (0, 0))).length % 2 = 1) <;>
    simp_all

lemma edgeTestChecked_eq (x y xi yi xj yj : ℚ) :
    edgeTestChecked x y xi yi xj yj = some (edgeTest x y xi yi xj yj) := by
  unfold edgeTestChecked edgeTest
  by_cases hg : ((decide (yi > y)) != (decide (yj > y))) = true
  · have hne : ¬(yj - yi = 0) := by
      intro h0
      have hyy : yj = yi := sub_eq_zero.mp h0
      rw [hyy] at hg
      simp at hg
    rw [if_pos hg, if_neg hne, hg, Bool.true_and]
  · rw [Bool.not_eq_true] at hg
    rw [hg]
    rfl

lemma foldl_checkedFlip (g : Nat → Option Bool) (f : Nat → Bool)
    (l : List Nat) (h : ∀ i ∈ l, g i = some (f i)) (b : Bool) :
    l.foldl (fun acc i => acc.bind fun x => (g i).map fun t => if t then !x else x)
        (some b)
      = some (l.foldl (fun acc i => if f i then !acc else acc) b) := by
  induction l generalizing b with
  | nil => rfl
  | cons x xs ih =>
    have hx := h x (List.mem_cons_self x xs)
    rw [List.foldl_cons, List.foldl_cons, hx]
    exact ih (fun i hi => h i (List.mem_cons_of_mem x hi)) (if f x then !b else b)

/-- C8: the division inside `pointInPolygon` is evaluated only under the
guard `(yi > y) !== (yj > y)`, which forces `yj - yi ≠ 0`, so the checked
variant (which aborts on any zero divisor actually evaluated) never aborts
and agrees with `pointInPolygon` on every input; and the guard does imply a
nonzero divisor. -/
theorem pointInPolygon_no_div_by_zero (p : ℚ × ℚ) (polygon : List (ℚ × ℚ)) :
    pointInPolygonChecked p polygon = some (pointInPolygon p polygon)
    ∧ ∀ y yi yj : ℚ, ((decide (yi > y)) != (decide (yj > y))) = true →
        yj - yi ≠ 0 := by
  constructor
  · unfold pointInPolygonChecked pointInPolygon
    exact foldl_checkedFlip (edgeAtChecked p polygon) (edgeAt p polygon)
      (List.range polygon.length)
      (fun i _ => edgeTestChecked_eq p.1 p.2 _ _ _ _) false
  · intro y yi yj hg h0
    have hyy : yj = yi := sub_eq_zero.mp h0
    rw [hyy] at hg
    simp at hg

/-- Witness for C8: the checked run on a concrete triangle, and the guard
forcing a nonzero divisor at concrete heights. -/
theorem pointInPolygon_no_div_by_zero_witness :
    ((decide ((1 : ℚ) > 0) != decide ((-1 : ℚ) > 0)) = true)
    ∧ ((-1 : ℚ) - 1 ≠ 0) := by
  refine ⟨by decide, ?_⟩
  exact (pointInPolygon_no_div_by_zero (0, 0) [(0, 0), (4, 0), (0, 4)]).2
    0 1 (-1) (by decide)

/-- C6: the zoom level starts at 1 (a value inside `[0.5, 3]`); zoom-in
replaces `z` by `min(1.2 z, 3)`, zoom-out by `max(z / 1.2, 0.5)`, wheel
zoom by `max(0.5, min(3, 0.9 z))` or `max(0.5, min(3, 1.1 z))` depending on
scroll direction, and reset restores zoom 1 and pan `(0, 0)`; every zoom
operation preserves `0.5 ≤ zoomLevel ≤ 3`. -/
theorem zoom_invariant_spec :
    initMapViewState.zoomLevel = 1
    ∧ zoomInv initMapViewState
    ∧ (∀ s : MapViewState, zoomInv s →
        zoomInv (handleZoomIn s) ∧ zoomInv (handleZoomOut s)
          ∧ ∀ d : ℚ, zoomInv (handleWheel d s))
    ∧ (∀ s : MapViewState,
        (handleZoomIn s).zoomLevel = min (s.zoomLevel * (6 / 5)) 3
        ∧ (handleZoomOut s).zoomLevel = max (s.zoomLevel / (6 / 5)) (1 / 2)
        ∧ (∀ d : ℚ, d > 0 →
            (handleWheel d s).zoomLevel = max (1 / 2) (min 3 (s.zoomLevel * (9 / 10))))
        ∧ (∀ d : ℚ, ¬d > 0 →
            (handleWheel d s).zoomLevel = max (1 / 2) (min 3 (s.zoomLevel * (11 / 10))))
        ∧ handleZoomReset s = { zoomLevel := 1, panOffset := (0, 0) }) := by
  refine ⟨rfl, ⟨by norm_num [initMapViewState], by norm_num [initMapViewState]⟩, ?_, ?_⟩
  · rintro s ⟨hlo, hhi⟩
    refine ⟨⟨?_, ?_⟩, ⟨?_, ?_⟩, fun d => ⟨?_, ?_⟩⟩
    · exact le_min (by linarith) (by norm_num)
    · exact min_le_right _ _
    · exact le_max_right _ _
    · have hdiv : s.zoomLevel / (6 / 5) = s.zoomLevel * (5 / 6) := by ring
      show max (s.zoomLevel / (6 / 5)) (1 / 2) ≤ 3
      rw [hdiv]
      exact max_le (by linarith) (by norm_num)
    · exact le_max_left _ _
    · exact max_le (by norm_num) (min_le_left _ _)
  · intro s
    refine ⟨rfl, rfl, fun d hd => ?_, fun d hd => ?_, rfl⟩
    · show max (1 / 2) (min 3 (s.zoomLevel * if d > 0 then (9 : ℚ) / 10 else 11 / 10)) = _
      rw [if_pos hd]
    · show max (1 / 2) (min 3 (s.zoomLevel * if d > 0 then (9 : ℚ) / 10 else 11 / 10)) = _
      rw [if_neg hd]

/-- Witness for C6: the invariant holds at a concrete state and is carried
through a concrete zoom-in. -/
theorem zoom_invariant_spec_witness :
    zoomInv ⟨2, (0, 0)⟩ ∧ zoomInv (handleZoomIn ⟨2, (0, 0)⟩) := by
  have h : zoomInv (⟨2, (0, 0)⟩ : MapViewState) := ⟨by norm_num, by norm_num⟩
  exact ⟨h, (zoom_invariant_spec.2.2.1 ⟨2, (0, 0)⟩ h).1⟩

lemma getD_set (l : List GeoData) (m k : Nat) (a d : GeoData) :
    (l.set m a).getD k d = if m = k ∧ m < l.length then a else l.getD k d := by
  rw [List.getD_eq_getElem?_getD, List.getD_eq_getElem?_getD, List.getElem?_set]
  by_cases h1 : m = k <;> by_cases h2 : m < l.length
  · subst h1; simp [h2]
  · subst h1
    simp [h2, List.getElem?_eq_none (le_of_not_lt h2)]
  · simp [h1, h2]
  · simp [h1, h2]

lemma length_schedule_foldl (vals : List GeoData) (order : List Nat)
    (acc : List GeoData) :
    (order.foldl (fun a i => a.set i (vals.getD i emptyGeoData)) acc).length
      = acc.length := by
  induction order generalizing acc with
  | nil => rfl
  | cons o os ih => rw [List.foldl_cons, ih, List.length_set]

lemma schedule_foldl_getD (vals : List GeoData) (order : List Nat)
    (acc : List GeoData) (k : Nat) :
    (order.foldl (fun a i => a.set i (vals.getD i emptyGeoData)) acc).getD k
        emptyGeoData
      = if k ∈ order ∧ k < acc.length then vals.getD k emptyGeoData
        else acc.getD k emptyGeoData := by
  induction order generalizing acc with
  | nil => simp
  | cons o os ih =>
    rw [List.foldl_cons, ih, List.length_set, getD_set]
    by_cases hk : k < acc.length
    · by_cases hos : k ∈ os
      · rw [if_pos ⟨hos, hk⟩, if_pos ⟨List.mem_cons_of_mem o hos, hk⟩]
      · rw [if_neg fun hc => hos hc.1]
        by_cases hok : o = k
        · rw [if_pos ⟨hok, by rw [hok]; exact hk⟩,
            if_pos ⟨by rw [hok]; exact List.mem_cons_self k os, hk⟩, hok]
        · rw [if_neg fun hc => hok hc.1,
            if_neg fun hc => (List.mem_cons.mp hc.1).elim (fun h => hok h.symm) hos]
    · rw [if_neg fun hc => hk hc.2]
      by_cases hok : o = k
      · rw [if_neg fun hc => hk (by rw [← hok]; exact hc.2),
          if_neg fun hc => hk hc.2]
      · rw [if_neg fun hc => hok hc.1, if_neg fun hc => hk hc.2]

lemma promiseAllSchedule_complete (vals : List GeoData) (order : List Nat)
    (h : ∀ i < vals.length, i ∈ order) :
    promiseAllSchedule vals order = vals := by
  unfold promiseAllSchedule
  apply List.ext_getElem
  · rw [length_schedule_foldl, List.length_replicate]
  · intro k h1 h2
    rw [← List.getD_eq_getElem _ emptyGeoData h1, ← List.getD_eq_getElem _ emptyGeoData h2,
      schedule_foldl_getD]
    rw [length_schedule_foldl, List.length_replicate] at h1
    rw [if_pos ⟨h k h2, by simpa using h1⟩]

/-- C7: under any completion order that eventually resolves all seven
fetches, `loadCombinedMapData` produces a combined FeatureCollection whose
features are exactly the concatenation of the per-city features in the
fixed order shanghai, hangzhou, huzhou, jiaxing, ningbo, shaoxing,
zhoushan — independent of the completion order — and a cities record
mapping each city to the data its own fetch resolved to. -/
theorem loadCombinedMapData_spec (env : CityType → GeoData) (order : List Nat)
    (h : ∀ i < 7, i ∈ order) :
    (loadCombinedMapData env order).2.features
      = (env .shanghai).features ++ (env .hangzhou).features
        ++ (env .huzhou).features ++ (env .jiaxing).features
        ++ (env .ningbo).features ++ (env .shaoxing).features
        ++ (env .zhoushan).features
    ∧ (∀ city : CityType, (loadCombinedMapData env order).1 city = env city)
    ∧ (loadCombinedMapData env order).2.featureCollectionType
        = "FeatureCollection" := by
  have hlen : (cityNames.map env).length = 7 := rfl
  have hsched : promiseAllSchedule (cityNames.map env) order = cityNames.map env :=
    promiseAllSchedule_complete _ _ (by rw [hlen]; exact h)
  refine ⟨?_, ?_, rfl⟩
  · show ((promiseAllSchedule (cityNames.map env) order).map GeoData.features).flatten = _
    rw [hsched]
    simp [cityNames]
  · intro city
    show (promiseAllSchedule (cityNames.map env) order).getD
        (cityNames.indexOf city) emptyGeoData = env city
    rw [hsched]
    cases city <;> rfl

/-- Witness for C7: a reversed completion order still yields the per-city
record. -/
theorem loadCombinedMapData_spec_witness :
    (∀ i < 7, i ∈ [6, 5, 4, 3, 2, 1, 0])
    ∧ (∀ city : CityType,
        (loadCombinedMapData (fun _ => sampleGeoData) [6, 5, 4, 3, 2, 1, 0]).1 city
          = sampleGeoData) :=
  ⟨by decide,
    (loadCombinedMapData_spec (fun _ => sampleGeoData) [6, 5, 4, 3, 2, 1, 0]
      (by decide)).2.1⟩

lemma searchLe_cond (x y : SearchResult) :
    (searchLe y x && !searchLe x y)
      = (isTargetResult y && !isTargetResult x) := by
  by_cases hx : isTargetResult x <;> by_cases hy : isTargetResult y <;>
    simp [searchLe, searchComparator, hx, hy]

lemma stableInsert_target (x : SearchResult) (hx : isTargetResult x = true)
    (l : List SearchResult) : stableInsert searchLe x l = x :: l := by
  cases l with
  | nil => rfl
  | cons y ys =>
    show (if searchLe y x && !searchLe x y
        then y :: stableInsert searchLe x ys else x :: y :: ys) = _
    rw [searchLe_cond, hx]
    simp

lemma stableInsert_nonTarget (x : SearchResult) (hx : isTargetResult x = false)
    (ts ns : List SearchResult) (hts : ∀ t ∈ ts, isTargetResult t = true)
    (hns : ∀ n ∈ ns, isTargetResult n = false) :
    stableInsert searchLe x (ts ++ ns) = ts ++ x :: ns := by
  induction ts with
  | nil =>
    cases ns with
    | nil => rfl
    | cons n ns2 =>
      show (if searchLe n x && !searchLe x n
          then n :: stableInsert searchLe x ns2 else x :: n :: ns2) = _
      rw [searchLe_cond, hns n (List.mem_cons_self n ns2), hx]
      rfl
  | cons t ts2 ih =>
    show (if searchLe t x && !searchLe x t
        then t :: stableInsert searchLe x (ts2 ++ ns)
        else x :: t :: (ts2 ++ ns)) = _
    rw [searchLe_cond, hts t (List.mem_cons_self t ts2), hx]
    show t :: stableInsert searchLe x (ts2 ++ ns) = _
    rw [ih fun u hu => hts u (List.mem_cons_of_mem t hu)]
    rfl

lemma stableSort_partition (l : List SearchResult) :
    stableSortResults searchLe l
      = (l.filter fun r => isTargetResult r)
        ++ (l.filter fun r => !isTargetResult r) := by
  induction l with
  | nil => rfl
  | cons x xs ih =>
    show stableInsert searchLe x (stableSortResults searchLe xs) = _
    rw [ih]
    by_cases hx : isTargetResult x
    · rw [stableInsert_target x hx,
        List.filter_cons_of_pos (by simp [hx]),
        List.filter_cons_of_neg (by simp [hx])]
      rfl
    · rw [Bool.not_eq_true] at hx
      rw [stableInsert_nonTarget x hx _ _
          (fun t ht => List.of_mem_filter ht)
          (fun n hn => by simpa using List.of_mem_filter hn),
        List.filter_cons_of_neg (by simp [hx]),
        List.filter_cons_of_pos (by simp [hx])]

lemma targets_first (A B : List SearchResult) (d : SearchResult)
    (hA : ∀ a ∈ A, isTargetResult a = true)
    (hB : ∀ b ∈ B, isTargetResult b = false)
    (n i j : Nat) (hij : i < j) (hj : j < ((A ++ B).take n).length)
    (htj : isTargetResult (((A ++ B).take n).getD j d) = true) :
    isTargetResult (((A ++ B).take n).getD i d) = true := by
  have hi : i < ((A ++ B).take n).length := lt_trans hij hj
  rw [List.getD_eq_getElem _ _ hj] at htj
  rw [List.getD_eq_getElem _ _ hi]
  rw [List.getElem_take] at htj
  rw [List.getElem_take]
  by_cases hjA : j < A.length
  · have hiA : i < A.length := lt_trans hij hjA
    rw [List.getElem_append_left hiA]
    exact hA _ (List.getElem_mem hiA)
  · push_neg at hjA
    rw [List.getElem_append_right hjA] at htj
    rw [hB _ (List.getElem_mem _)] at htj
    cases htj

/-- C10: the search box's post-processing of a geocoding result list is a
stable two-valued-priority sort of the China-only hits truncated to 8: the
result equals targets-then-others of the China filter taken to 8, keeps
only entries whose country is China, has at most 8 entries, and every
retained Shanghai/Zhejiang entry appears before every retained other
entry. -/
theorem searchLocations_filter_spec (locations : List SearchResult) :
    filterSearchResults locations
      = (((locations.filter fun l => l.country == "China").filter
            fun r => isTargetResult r)
          ++ ((locations.filter fun l => l.country == "China").filter
            fun r => !isTargetResult r)).take 8
    ∧ (∀ r ∈ filterSearchResults locations, r.country = "China")
    ∧ (filterSearchResults locations).length ≤ 8
    ∧ (∀ i j : Nat, i < j → j < (filterSearchResults locations).length →
        isTargetResult ((filterSearchResults locations).getD j
          ⟨"", 0, 0, "", none, none⟩) = true →
        isTargetResult ((filterSearchResults locations).getD i
          ⟨"", 0, 0, "", none, none⟩) = true) := by
  have hpart : filterSearchResults locations
      = (((locations.filter fun l => l.country == "China").filter
            fun r => isTargetResult r)
          ++ ((locations.filter fun l => l.country == "China").filter
            fun r => !isTargetResult r)).take 8 := by
    unfold filterSearchResults
    rw [stableSort_partition]
  refine ⟨hpart, ?_, ?_, ?_⟩
  · intro r hr
    rw [hpart] at hr
    have hr2 := List.take_subset 8 _ hr
    rcases List.mem_append.mp hr2 with hr3 | hr3 <;>
      · have h4 : r ∈ locations.filter fun l => l.country == "China" :=
          List.mem_of_mem_filter hr3
        exact eq_of_beq (List.mem_filter.mp h4).2
  · rw [hpart]
    exact List.length_take_le 8 _
  · intro i j hij hj htj
    rw [hpart] at hj htj ⊢
    refine targets_first _ _ _ ?_ ?_ 8 i j hij hj htj
    · exact fun a ha => List.of_mem_filter ha
    · exact fun b hb => by simpa using List.of_mem_filter hb

/-- Witness for C10: on a concrete geocoding response the entry at
position 1 is a target, and so is the entry before it. -/
theorem searchLocations_filter_spec_witness :
    ((0 : Nat) < 1
      ∧ 1 < (filterSearchResults sampleSearchResults).length
      ∧ isTargetResult ((filterSearchResults sampleSearchResults).getD 1
          ⟨"", 0, 0, "", none, none⟩) = true)
    ∧ isTargetResult ((filterSearchResults sampleSearchResults).getD 0
        ⟨"", 0, 0, "", none, none⟩) = true := by
  refine ⟨⟨by decide, by decide, by decide⟩, ?_⟩
  exact (searchLocations_filter_spec sampleSearchResults).2.2.2 0 1
    (by decide) (by decide) (by decide)
